import Mathlib

/-!
Shallow embedding of the star-count refresh widget
(`src/textual/demo/home.py`, class `StarCount`) and of the key-bindings
table renderer (`src/textual/widgets/_key_panel.py`, class
`BindingsTable`), with theorems checking the specification's claims
about them.

The refresh worker `get_stars` is embedded as a function from its
environment (whether the `httpx` dependency imported, and the outcome of
the delay, the GET and the JSON parse) to the trace of observable steps
it performs, together with the exception, if any, escaping it.  Widget
state (the two reactive counters and the loading flag) is obtained by
folding the trace over a starting state.
-/

namespace TextualDemo

/-- A user-visible notification as produced by the widget's `self.notify`
calls: message, title and severity. -/
structure Notice where
  message : String
  title : String
  severity : String
deriving DecidableEq

/-- The mutable state of the `StarCount` widget: the reactive counters
`stars` and `forks`, and the `loading` flag. -/
structure StarState where
  stars : Int
  forks : Int
  loading : Bool
deriving DecidableEq

/-- State of a fresh `StarCount`: `stars = reactive(25251)` and
`forks = reactive(776)`, with no refresh in flight. -/
def initState : StarState :=
  { stars := 25251, forks := 776, loading := false }

/-- Observable steps performed by `StarCount.get_stars`, in source order. -/
inductive Event where
  | setLoading (b : Bool)
  | sleep (seconds : Nat)
  | httpGet (url : String)
  | setStars (v : Int)
  | setForks (v : Int)
  | notice (n : Notice)
deriving DecidableEq

/-- Python exceptions that the statements inside the `try` block of
`get_stars` can raise: a failure of `asyncio.sleep`, a failure of the GET
or of `.json()`, and a `KeyError` from subscripting the parsed response. -/
inductive PyExn where
  | sleepError
  | netError
  | keyError (field : String)
deriving DecidableEq

/-- The environment one refresh attempt runs against: the delay or the
GET/parse may raise, or the GET yields a parsed JSON object, modelled as a
partial map from field names to integers (subscripting an absent field
raises `KeyError`). -/
inductive FetchOutcome where
  | sleepFail
  | getFail
  | parsed (json : String → Option Int)

/-- The fixed URL the GET is issued to. -/
def GITHUB_REPO_URL : String := "https://api.github.com/repos/textualize/textual"

/-- The message of the notice emitted when `httpx` is unavailable. -/
def INSTALL_HTTPX_MESSAGE : String :=
  "Install httpx to update stars from the GitHub API.\n\n$ [b]pip install httpx[/b]"

/-- Modelled from the spec: the missing-capability `self.notify` call passes
no severity, and the body of the framework's `notify` (which supplies the
default severity) is not among the sources under review; the spec calls the
resulting notice an informational notice, so the default is taken to be
the informational severity. -/
def NOTIFY_DEFAULT_SEVERITY : String := "information"

/-- The notice emitted by the missing-capability branch of `get_stars`. -/
def installNotice : Notice :=
  { message := INSTALL_HTTPX_MESSAGE
    title := "GitHub Stars"
    severity := NOTIFY_DEFAULT_SEVERITY }

/-- The notice emitted by the `except Exception` handler of `get_stars`. -/
def errorNotice : Notice :=
  { message := "Unable to update star count (maybe rate-limited)"
    title := "GitHub stars"
    severity := "error" }

/-- The `try` block of `get_stars`: `await asyncio.sleep(1)`, the GET and
`.json()`, then `self.stars = repository_json["stargazers_count"]` and
`self.forks = repository_json["forks"]`.  Returns the events performed
before the block returned or raised, and the exception if one was raised. -/
def tryBody (outcome : FetchOutcome) : List Event × Option PyExn :=
  match outcome with
  | .sleepFail => ([], some .sleepError)
  | .getFail => ([.sleep 1, .httpGet GITHUB_REPO_URL], some .netError)
  | .parsed json =>
    match json "stargazers_count" with
    | none =>
        ([.sleep 1, .httpGet GITHUB_REPO_URL], some (.keyError "stargazers_count"))
    | some s =>
      match json "forks" with
      | none =>
          ([.sleep 1, .httpGet GITHUB_REPO_URL, .setStars s], some (.keyError "forks"))
      | some f =>
          ([.sleep 1, .httpGet GITHUB_REPO_URL, .setStars s, .setForks f], none)

/-- The whole of `StarCount.get_stars`, as the trace of its steps together
with the exception, if any, escaping it.  The early return fires when
`HTTPX_AVAILABLE` is false; otherwise `self.loading = True` precedes the
`try` block, the `except Exception` handler turns any raised exception into
`errorNotice`, and `self.loading = False` runs after the handler. -/
def get_stars_exc (httpx_available : Bool) (outcome : FetchOutcome) :
    List Event × Option PyExn :=
  if httpx_available = false then
    ([.notice installNotice], none)
  else
    let r := tryBody outcome
    let handled := if r.2.isSome then r.1 ++ [.notice errorNotice] else r.1
    (Event.setLoading true :: handled ++ [Event.setLoading false], none)

/-- The trace of one call to `get_stars`. -/
def get_stars (httpx_available : Bool) (outcome : FetchOutcome) : List Event :=
  (get_stars_exc httpx_available outcome).1

/-- Effect of one event on the widget state. -/
def applyEvent (s : StarState) : Event → StarState
  | .setLoading b => { s with loading := b }
  | .setStars v => { s with stars := v }
  | .setForks v => { s with forks := v }
  | _ => s

/-- Run a trace of events over a starting state. -/
def runEvents (s : StarState) (events : List Event) : StarState :=
  events.foldl applyEvent s

/-- The notices emitted along a trace. -/
def noticesOf (events : List Event) : List Notice :=
  events.filterMap fun e =>
    match e with
    | .notice n => some n
    | _ => none

/-- UI activations that trigger a refresh: the initial mount and a pointer
click. -/
inductive Activation where
  | mount
  | click
deriving DecidableEq

/-- The activation handlers: `StarCount.on_mount` sets the widget tooltip
and then calls `self.get_stars()` once; `StarCount.on_click` calls
`self.get_stars()` once.  The tooltip assignment is not an `Event` because
it touches neither counter, nor the loading flag, nor the notification
channel. -/
def handle (a : Activation) (httpx_available : Bool) (outcome : FetchOutcome) :
    List Event :=
  match a with
  | .mount => get_stars httpx_available outcome
  | .click => get_stars httpx_available outcome

/-- Handle a sequence of activations, each refresh attempt running to
completion against its own fetch outcome before the next starts. -/
def handleAll (httpx_available : Bool) :
    List (Activation × FetchOutcome) → List Event
  | [] => []
  | (a, o) :: rest => handle a httpx_available o ++ handleAll httpx_available rest

/-- Concrete JSON mapping used to witness the success path. -/
def successJson : String → Option Int := fun field =>
  if field = "stargazers_count" then some 42
  else if field = "forks" then some 7
  else none

/-- Concrete JSON mapping with a `stargazers_count` field but no `forks`
field: subscripting `forks` raises `KeyError` after `self.stars` was
already assigned. -/
def partialJson : String → Option Int := fun field =>
  if field = "stargazers_count" then some 42 else none

end TextualDemo

namespace KeyPanel

/-- A key binding as used by the bindings table: its key, the action it
invokes, its description and its tooltip. -/
structure Binding where
  key : String
  action : String
  description : String
  tooltip : String
deriving DecidableEq

/-- One entry of `screen.active_bindings.values()`: the tuple
`(namespace, binding, enabled, tooltip)`.  The namespace (a DOM node) is
abstracted to a numeric identifier compared for equality, which is all
`groupby` and the section logic use it for. -/
structure ActiveBinding where
  ns : Nat
  binding : Binding
  enabled : Bool
  tooltip : String
deriving DecidableEq

/-- One row added to the rendered table: the key display and the rendered
description text. -/
structure Row where
  key : String
  description : String
deriving DecidableEq

/-- The `render_description` helper: the binding's description markup and,
when the binding has a non-empty tooltip, a space and the tooltip. -/
def render_description (b : Binding) : String :=
  if b.tooltip = "" then b.description else b.description ++ " " ++ b.tooltip

/-- One `table.add_row` call: the key display of the binding (via the
app-level `get_key_display`, abstracted as the parameter `kd`) and its
rendered description. -/
def render_row (kd : Binding → String) (b : Binding) : Row :=
  { key := kd b, description := render_description b }

/-- The `itertools.groupby(bindings, key=itemgetter(0))` step: split the
list into maximal runs of consecutive entries sharing a namespace, keeping
each run's key. -/
def groupByNamespace : List ActiveBinding → List (Nat × List ActiveBinding)
  | [] => []
  | b :: rest =>
    match groupByNamespace rest with
    | [] => [(b.ns, [b])]
    | (k, g) :: gs =>
      if b.ns = k then (k, b :: g) :: gs else (b.ns, [b]) :: (k, g) :: gs

/-- One iteration of the `action_to_bindings` defaultdict loop: append the
entry to the list kept for its binding's action; a first occurrence of an
action adds a fresh singleton entry at the end, matching dict insertion
order. -/
def addBinding (acc : List (String × List ActiveBinding)) (b : ActiveBinding) :
    List (String × List ActiveBinding) :=
  if acc.any (fun p => p.1 = b.binding.action) then
    acc.map (fun p => if p.1 = b.binding.action then (p.1, p.2 ++ [b]) else p)
  else
    acc ++ [(b.binding.action, [b])]

/-- The `action_to_bindings` defaultdict built over one namespace group, as
an association list in key insertion order. -/
def action_to_bindings (g : List ActiveBinding) :
    List (String × List ActiveBinding) :=
  g.foldl addBinding []

/-- The inner row loop of `render_bindings_table`: one row per entry of
`action_to_bindings`, rendered from `multi_bindings[0]`, the first binding
recorded for that action. -/
def rowsOfGroup (kd : Binding → String) (g : List ActiveBinding) : List Row :=
  (action_to_bindings g).filterMap fun p =>
    p.2.head?.map fun e => render_row kd e.binding

/-- The function `BindingsTable.render_bindings_table`, restricted to the
rows it adds (the section dividers and component styles are presentation
only). -/
def render_bindings_table (kd : Binding → String) (bs : List ActiveBinding) :
    List Row :=
  (groupByNamespace bs).flatMap fun p => rowsOfGroup kd p.2

/-- The distinct values of a list in order of first occurrence: the key
order of a Python insertion-ordered dict. -/
def firstOcc : List String → List String
  | [] => []
  | a :: rest => a :: (firstOcc rest).filter (fun x => decide (x ≠ a))

/-- Specification-side description of `action_to_bindings`: one entry per
distinct action in first-occurrence order, carrying every binding of the
group with that action, in group order. -/
def groupsOf (g : List ActiveBinding) : List (String × List ActiveBinding) :=
  (firstOcc (g.map (fun b => b.binding.action))).map
    (fun a => (a, g.filter (fun b => decide (b.binding.action = a))))

/-- Key display function used by the claim C10 witness. -/
def witnessKd : Binding → String := fun b => b.key

/-- Bindings list used by the claim C10 witness: two bindings in the same
namespace sharing the action `quit`. -/
def witnessBindings : List ActiveBinding :=
  [ { ns := 0
      binding := { key := "q", action := "quit", description := "Quit", tooltip := "" }
      enabled := true
      tooltip := "" },
    { ns := 0
      binding := { key := "x", action := "quit", description := "Exit", tooltip := "" }
      enabled := true
      tooltip := "" } ]

end KeyPanel

namespace TextualDemo

/-- Claim C7: at construction the metric holds the hard-coded defaults,
stars counter `25251` and forks counter `776`, before any refresh runs. -/
theorem claim_C7 : initState.stars = 25251 ∧ initState.forks = 776 :=
  ⟨rfl, rfl⟩

/-- Claim C3: when `httpx` is unavailable, `get_stars` emits exactly the
single informational install notice and returns at once: its whole trace is
that one notice, so it never sets `loading`, never sleeps, never issues the
GET, and leaves the state (both counters and the loading flag) untouched;
the notice's severity is the non-error default severity. -/
theorem claim_C3 (outcome : FetchOutcome) (s : StarState) :
    get_stars false outcome = [Event.notice installNotice]
      ∧ runEvents s (get_stars false outcome) = s
      ∧ installNotice.severity = NOTIFY_DEFAULT_SEVERITY
      ∧ NOTIFY_DEFAULT_SEVERITY ≠ "error" := by
  refine ⟨rfl, rfl, rfl, ?_⟩
  decide

/-- Claim C2: with `httpx` available, a GET whose body parses to a mapping
holding integer `stargazers_count` and `forks` fields makes `get_stars`
set the two counters to those two fields back to back with no other state
change in between, emit no notice, and end with `loading` false; the final
state is exactly both new counters with `loading` false. -/
theorem claim_C2 (json : String → Option Int) (s : StarState) (sc fc : Int)
    (h1 : json "stargazers_count" = some sc) (h2 : json "forks" = some fc) :
    get_stars true (.parsed json) =
        [Event.setLoading true, Event.sleep 1, Event.httpGet GITHUB_REPO_URL,
          Event.setStars sc, Event.setForks fc, Event.setLoading false]
      ∧ runEvents s (get_stars true (.parsed json)) =
          { stars := sc, forks := fc, loading := false }
      ∧ noticesOf (get_stars true (.parsed json)) = [] := by
  have ht : tryBody (.parsed json) =
      ([.sleep 1, .httpGet GITHUB_REPO_URL, .setStars sc, .setForks fc], none) := by
    simp [tryBody, h1, h2]
  refine ⟨?_, ?_, ?_⟩ <;>
    simp [get_stars, get_stars_exc, ht, runEvents, applyEvent, noticesOf]

/-- Witness for claim C2 at the spec's example response
`stargazers_count = 42`, `forks = 7`, from the default state. -/
theorem claim_C2_witness :
    runEvents initState (get_stars true (.parsed successJson)) =
        { stars := 42, forks := 7, loading := false }
      ∧ noticesOf (get_stars true (.parsed successJson)) = [] :=
  ⟨(claim_C2 successJson initState 42 7 rfl rfl).2.1,
    (claim_C2 successJson initState 42 7 rfl rfl).2.2⟩

/-- Claim C5: no exception ever escapes `get_stars` — for every
availability of `httpx` and every outcome of the delay, the GET and the
parse, the escaping-exception component is `none`; and whenever the `try`
block did raise, the trace contains the user-visible error notice instead. -/
theorem claim_C5 (httpx_available : Bool) (outcome : FetchOutcome) :
    (get_stars_exc httpx_available outcome).2 = none
      ∧ ((tryBody outcome).2.isSome = true →
          Event.notice errorNotice ∈ get_stars true outcome) := by
  constructor
  · cases httpx_available <;> simp [get_stars_exc]
  · intro h
    simp [get_stars, get_stars_exc, h]

/-- Witness for claim C5 at a failing delay: no exception escapes and the
error notice is in the trace. -/
theorem claim_C5_witness :
    (get_stars_exc true FetchOutcome.sleepFail).2 = none
      ∧ Event.notice errorNotice ∈ get_stars true FetchOutcome.sleepFail :=
  ⟨(claim_C5 true FetchOutcome.sleepFail).1,
    (claim_C5 true FetchOutcome.sleepFail).2 rfl⟩

/-- Claim C6: in every refresh attempt with `httpx` available, the fixed
one-second delay comes after `loading` is set true, and the GET is only
ever issued after that delay: whenever the trace performs the delay its
first two steps are setting `loading` true and sleeping one second, and
whenever it issues the GET its first three steps are setting `loading`
true, sleeping one second, and the GET itself. -/
theorem claim_C6 (outcome : FetchOutcome) :
    (Event.sleep 1 ∈ get_stars true outcome →
        (get_stars true outcome).take 2 = [Event.setLoading true, Event.sleep 1])
      ∧ (Event.httpGet GITHUB_REPO_URL ∈ get_stars true outcome →
          (get_stars true outcome).take 3 =
            [Event.setLoading true, Event.sleep 1,
              Event.httpGet GITHUB_REPO_URL]) := by
  cases outcome with
  | sleepFail =>
      constructor <;> intro h <;>
        simp [get_stars, get_stars_exc, tryBody] at h
  | getFail =>
      constructor <;> intro h <;> rfl
  | parsed json =>
      rcases h1 : json "stargazers_count" with _ | sc
      · constructor <;> intro h <;>
          simp [get_stars, get_stars_exc, tryBody, h1]
      · rcases h2 : json "forks" with _ | fc <;>
          · constructor <;> intro h <;>
              simp [get_stars, get_stars_exc, tryBody, h1, h2]

/-- Witness for claim C6 at a failing GET: the trace starts by setting
`loading` true, sleeping one second, then issuing the GET. -/
theorem claim_C6_witness :
    (get_stars true FetchOutcome.getFail).take 3 =
      [Event.setLoading true, Event.sleep 1, Event.httpGet GITHUB_REPO_URL] :=
  (claim_C6 FetchOutcome.getFail).2 (by decide)

/-- Running a trace that contains no `setLoading` event leaves the loading
flag where it was. -/
theorem runEvents_loading_of_no_setLoading (evs : List Event)
    (h : ∀ b, Event.setLoading b ∉ evs) (x : StarState) :
    (runEvents x evs).loading = x.loading := by
  induction evs generalizing x with
  | nil => rfl
  | cons e rest ih =>
    have hrest : ∀ b, Event.setLoading b ∉ rest := fun b hb =>
      h b (List.mem_cons_of_mem _ hb)
    cases e with
    | setLoading b => exact absurd (List.mem_cons_self _ _) (h b)
    | sleep n => exact (ih hrest _).trans rfl
    | httpGet u => exact (ih hrest _).trans rfl
    | setStars v => exact (ih hrest _).trans rfl
    | setForks v => exact (ih hrest _).trans rfl
    | notice n => exact (ih hrest _).trans rfl

/-- Bracketing of the loading flag over a trace of the shape produced by
every capability-available attempt: `setLoading true`, a middle part free
of loading assignments, then `setLoading false`. -/
theorem loading_bracket (s : StarState) (mid : List Event)
    (hmid : ∀ b, Event.setLoading b ∉ mid) (h : s.loading = false) :
    (runEvents s ((Event.setLoading true :: mid ++ [Event.setLoading false]).take 0)).loading
        = false
      ∧ (∀ i, 0 < i →
          i < (Event.setLoading true :: mid ++ [Event.setLoading false]).length →
          (runEvents s ((Event.setLoading true :: mid ++ [Event.setLoading false]).take i)).loading
            = true)
      ∧ (runEvents s (Event.setLoading true :: mid ++ [Event.setLoading false])).loading
          = false := by
  refine ⟨h, ?_, ?_⟩
  · intro i h0 hlen
    obtain ⟨j, rfl⟩ : ∃ j, i = j + 1 := ⟨i - 1, by omega⟩
    have hj : j ≤ mid.length := by
      simp only [List.length_cons, List.length_append, List.length_nil] at hlen
      omega
    have htake : (mid ++ [Event.setLoading false]).take j = mid.take j :=
      List.take_append_of_le_length hj
    show (runEvents (applyEvent s (Event.setLoading true))
        ((mid ++ [Event.setLoading false]).take j)).loading = true
    rw [htake]
    have hnot : ∀ b, Event.setLoading b ∉ mid.take j := fun b hb =>
      hmid b (List.take_subset j mid hb)
    rw [runEvents_loading_of_no_setLoading _ hnot]
    rfl
  · have hsplit : runEvents s (Event.setLoading true :: mid ++ [Event.setLoading false])
        = applyEvent (runEvents (applyEvent s (Event.setLoading true)) mid)
            (Event.setLoading false) := by
      simp [runEvents, List.foldl_append]
    rw [hsplit]
    rfl

/-- Claim C4: for every attempt with `httpx` available and any starting
state that is not loading, the loading flag is false before the attempt,
true after every proper non-empty prefix of the attempt's trace (it is set
true by the first step and only reset by the last), and false once the
attempt completes, whether the fetch succeeded or failed. -/
theorem claim_C4 (outcome : FetchOutcome) (s : StarState) (h : s.loading = false) :
    (runEvents s ((get_stars true outcome).take 0)).loading = false
      ∧ (∀ i, 0 < i → i < (get_stars true outcome).length →
          (runEvents s ((get_stars true outcome).take i)).loading = true)
      ∧ (runEvents s (get_stars true outcome)).loading = false := by
  cases outcome with
  | sleepFail =>
    have hL : get_stars true FetchOutcome.sleepFail
        = Event.setLoading true ::
            [Event.notice errorNotice] ++ [Event.setLoading false] := rfl
    rw [hL]
    exact loading_bracket s _ (by intro b; simp) h
  | getFail =>
    have hL : get_stars true FetchOutcome.getFail
        = Event.setLoading true ::
            [Event.sleep 1, Event.httpGet GITHUB_REPO_URL, Event.notice errorNotice]
              ++ [Event.setLoading false] := rfl
    rw [hL]
    exact loading_bracket s _ (by intro b; simp) h
  | parsed json =>
    rcases h1 : json "stargazers_count" with _ | sc
    · have hL : get_stars true (FetchOutcome.parsed json)
          = Event.setLoading true ::
              [Event.sleep 1, Event.httpGet GITHUB_REPO_URL, Event.notice errorNotice]
                ++ [Event.setLoading false] := by
        simp [get_stars, get_stars_exc, tryBody, h1]
      rw [hL]
      exact loading_bracket s _ (by intro b; simp) h
    · rcases h2 : json "forks" with _ | fc
      · have hL : get_stars true (FetchOutcome.parsed json)
            = Event.setLoading true ::
                [Event.sleep 1, Event.httpGet GITHUB_REPO_URL, Event.setStars sc,
                  Event.notice errorNotice] ++ [Event.setLoading false] := by
          simp [get_stars, get_stars_exc, tryBody, h1, h2]
        rw [hL]
        exact loading_bracket s _ (by intro b; simp) h
      · have hL : get_stars true (FetchOutcome.parsed json)
            = Event.setLoading true ::
                [Event.sleep 1, Event.httpGet GITHUB_REPO_URL, Event.setStars sc,
                  Event.setForks fc] ++ [Event.setLoading false] := by
          simp [get_stars, get_stars_exc, tryBody, h1, h2]
        rw [hL]
        exact loading_bracket s _ (by intro b; simp) h

/-- Witness for claim C4 at a failing GET from the default state: loading
is true after two steps of the attempt and false after it completes. -/
theorem claim_C4_witness :
    (runEvents initState ((get_stars true FetchOutcome.getFail).take 2)).loading = true
      ∧ (runEvents initState (get_stars true FetchOutcome.getFail)).loading = false :=
  ⟨(claim_C4 FetchOutcome.getFail initState rfl).2.1 2 (by decide) (by decide),
    (claim_C4 FetchOutcome.getFail initState rfl).2.2⟩

/-- Counterexample to claim C1 as stated: with the response parsed to a
mapping holding `stargazers_count = 42` but no `forks` field, subscripting
`forks` raises `KeyError` — an exception during extraction of the response
fields — yet after the refresh completes the stars counter has moved from
its prior value 25251 to 42, because `self.stars` is assigned before
`self.forks` is read. -/
theorem claim_C1_counterexample :
    (tryBody (FetchOutcome.parsed partialJson)).2 = some (PyExn.keyError "forks")
      ∧ ¬ (runEvents initState (get_stars true (FetchOutcome.parsed partialJson))).stars
            = initState.stars := by
  constructor
  · rfl
  · intro hcontra
    simp [runEvents, get_stars, get_stars_exc, tryBody, partialJson,
      applyEvent, initState] at hcontra

/-- Claim C1 as amended: for every attempt with `httpx` available in which
the `try` block raises, exactly one error notice is emitted, loading ends
false, and the forks counter keeps its prior value; the stars counter also
keeps its prior value unless the exception was raised while subscripting
the `forks` field after `stargazers_count` was already extracted, in which
case the stars counter holds the freshly extracted value. -/
theorem claim_C1 (outcome : FetchOutcome) (s : StarState)
    (h : (tryBody outcome).2.isSome = true) :
    noticesOf (get_stars true outcome) = [errorNotice]
      ∧ (runEvents s (get_stars true outcome)).loading = false
      ∧ (runEvents s (get_stars true outcome)).forks = s.forks
      ∧ ((runEvents s (get_stars true outcome)).stars = s.stars
          ∨ ∃ json v, outcome = FetchOutcome.parsed json
              ∧ json "stargazers_count" = some v ∧ json "forks" = none
              ∧ (runEvents s (get_stars true outcome)).stars = v) := by
  cases outcome with
  | sleepFail => exact ⟨rfl, rfl, rfl, Or.inl rfl⟩
  | getFail => exact ⟨rfl, rfl, rfl, Or.inl rfl⟩
  | parsed json =>
    rcases h1 : json "stargazers_count" with _ | sc
    · have hL : get_stars true (FetchOutcome.parsed json)
          = [Event.setLoading true, Event.sleep 1, Event.httpGet GITHUB_REPO_URL,
              Event.notice errorNotice, Event.setLoading false] := by
        simp [get_stars, get_stars_exc, tryBody, h1]
      rw [hL]
      exact ⟨rfl, rfl, rfl, Or.inl rfl⟩
    · rcases h2 : json "forks" with _ | fc
      · have hL : get_stars true (FetchOutcome.parsed json)
            = [Event.setLoading true, Event.sleep 1, Event.httpGet GITHUB_REPO_URL,
                Event.setStars sc, Event.notice errorNotice,
                Event.setLoading false] := by
          simp [get_stars, get_stars_exc, tryBody, h1, h2]
        rw [hL]
        exact ⟨rfl, rfl, rfl, Or.inr ⟨json, sc, rfl, h1, h2, rfl⟩⟩
      · exfalso
        simp [tryBody, h1, h2] at h

/-- Witness for claim C1 at a failing delay from the default state: one
error notice, loading false, and both counters unchanged. -/
theorem claim_C1_witness :
    noticesOf (get_stars true FetchOutcome.sleepFail) = [errorNotice]
      ∧ (runEvents initState (get_stars true FetchOutcome.sleepFail)).loading = false
      ∧ (runEvents initState (get_stars true FetchOutcome.sleepFail)).forks
          = initState.forks :=
  ⟨(claim_C1 FetchOutcome.sleepFail initState rfl).1,
    (claim_C1 FetchOutcome.sleepFail initState rfl).2.1,
    (claim_C1 FetchOutcome.sleepFail initState rfl).2.2.1⟩

/-- Claim C8: the counters are mutated only by the success-path
assignments of `get_stars`.  The missing-capability branch leaves both
counters unchanged; the `except` handler's notices change no state; the
click and mount handlers perform nothing beyond one `get_stars` call; and
any change to a counter across a refresh traces back to the corresponding
field extraction succeeding, the counter holding the extracted value. -/
theorem claim_C8 (httpx_available : Bool) (outcome : FetchOutcome) (s : StarState) :
    ((runEvents s (get_stars false outcome)).stars = s.stars
        ∧ (runEvents s (get_stars false outcome)).forks = s.forks)
      ∧ (∀ n : Notice, applyEvent s (Event.notice n) = s)
      ∧ handle Activation.click httpx_available outcome
          = get_stars httpx_available outcome
      ∧ handle Activation.mount httpx_available outcome
          = get_stars httpx_available outcome
      ∧ ((runEvents s (get_stars httpx_available outcome)).stars ≠ s.stars →
          httpx_available = true
            ∧ ∃ json v, outcome = FetchOutcome.parsed json
                ∧ json "stargazers_count" = some v
                ∧ (runEvents s (get_stars httpx_available outcome)).stars = v)
      ∧ ((runEvents s (get_stars httpx_available outcome)).forks ≠ s.forks →
          httpx_available = true
            ∧ ∃ json v w, outcome = FetchOutcome.parsed json
                ∧ json "stargazers_count" = some v ∧ json "forks" = some w
                ∧ (runEvents s (get_stars httpx_available outcome)).forks = w) := by
  refine ⟨⟨rfl, rfl⟩, fun n => rfl, rfl, rfl, ?_, ?_⟩
  · intro hne
    cases httpx_available with
    | false => exact absurd rfl hne
    | true =>
      refine ⟨rfl, ?_⟩
      cases outcome with
      | sleepFail => exact absurd rfl hne
      | getFail => exact absurd rfl hne
      | parsed json =>
        rcases h1 : json "stargazers_count" with _ | sc
        · exfalso
          apply hne
          have hL : get_stars true (FetchOutcome.parsed json)
              = [Event.setLoading true, Event.sleep 1, Event.httpGet GITHUB_REPO_URL,
                  Event.notice errorNotice, Event.setLoading false] := by
            simp [get_stars, get_stars_exc, tryBody, h1]
          rw [hL]
          rfl
        · refine ⟨json, sc, rfl, h1, ?_⟩
          rcases h2 : json "forks" with _ | fc
          · have hL : get_stars true (FetchOutcome.parsed json)
                = [Event.setLoading true, Event.sleep 1, Event.httpGet GITHUB_REPO_URL,
                    Event.setStars sc, Event.notice errorNotice,
                    Event.setLoading false] := by
              simp [get_stars, get_stars_exc, tryBody, h1, h2]
            rw [hL]
            rfl
          · have hL : get_stars true (FetchOutcome.parsed json)
                = [Event.setLoading true, Event.sleep 1, Event.httpGet GITHUB_REPO_URL,
                    Event.setStars sc, Event.setForks fc, Event.setLoading false] := by
              simp [get_stars, get_stars_exc, tryBody, h1, h2]
            rw [hL]
            rfl
  · intro hne
    cases httpx_available with
    | false => exact absurd rfl hne
    | true =>
      refine ⟨rfl, ?_⟩
      cases outcome with
      | sleepFail => exact absurd rfl hne
      | getFail => exact absurd rfl hne
      | parsed json =>
        rcases h1 : json "stargazers_count" with _ | sc
        · exfalso
          apply hne
          have hL : get_stars true (FetchOutcome.parsed json)
              = [Event.setLoading true, Event.sleep 1, Event.httpGet GITHUB_REPO_URL,
                  Event.notice errorNotice, Event.setLoading false] := by
            simp [get_stars, get_stars_exc, tryBody, h1]
          rw [hL]
          rfl
        · rcases h2 : json "forks" with _ | fc
          · exfalso
            apply hne
            have hL : get_stars true (FetchOutcome.parsed json)
                = [Event.setLoading true, Event.sleep 1, Event.httpGet GITHUB_REPO_URL,
                    Event.setStars sc, Event.notice errorNotice,
                    Event.setLoading false] := by
              simp [get_stars, get_stars_exc, tryBody, h1, h2]
            rw [hL]
            rfl
          · refine ⟨json, sc, fc, rfl, h1, h2, ?_⟩
            have hL : get_stars true (FetchOutcome.parsed json)
                = [Event.setLoading true, Event.sleep 1, Event.httpGet GITHUB_REPO_URL,
                    Event.setStars sc, Event.setForks fc, Event.setLoading false] := by
              simp [get_stars, get_stars_exc, tryBody, h1, h2]
            rw [hL]
            rfl

/-- Witness for claim C8: without the capability the stars counter is
untouched, and when the stars counter does change across a successful
refresh from the default state, the change traces to the extracted
`stargazers_count` field. -/
theorem claim_C8_witness :
    (runEvents initState (get_stars false (FetchOutcome.parsed successJson))).stars
        = initState.stars
      ∧ (true = true
          ∧ ∃ json v, FetchOutcome.parsed successJson = FetchOutcome.parsed json
              ∧ json "stargazers_count" = some v
              ∧ (runEvents initState
                  (get_stars true (FetchOutcome.parsed successJson))).stars = v) :=
  ⟨(claim_C8 false (FetchOutcome.parsed successJson) initState).1.1,
    (claim_C8 true (FetchOutcome.parsed successJson) initState).2.2.2.2.1 (by decide)⟩

/-- Claim C9: each activation (mount or click) performs exactly one
`get_stars` call, and two activations run in sequence produce the
concatenation of two independent refresh traces: the state after both is
the second attempt's trace run over the state left by the first, and the
notices are those of the first attempt followed by those of the second. -/
theorem claim_C9 (httpx_available : Bool) (a1 a2 : Activation)
    (o1 o2 : FetchOutcome) (s : StarState) :
    handle a1 httpx_available o1 = get_stars httpx_available o1
      ∧ handle a2 httpx_available o2 = get_stars httpx_available o2
      ∧ handleAll httpx_available [(a1, o1), (a2, o2)]
          = get_stars httpx_available o1 ++ get_stars httpx_available o2
      ∧ runEvents s (handleAll httpx_available [(a1, o1), (a2, o2)])
          = runEvents (runEvents s (get_stars httpx_available o1))
              (get_stars httpx_available o2)
      ∧ noticesOf (handleAll httpx_available [(a1, o1), (a2, o2)])
          = noticesOf (get_stars httpx_available o1)
              ++ noticesOf (get_stars httpx_available o2) := by
  have h1 : handle a1 httpx_available o1 = get_stars httpx_available o1 := by
    cases a1 <;> rfl
  have h2 : handle a2 httpx_available o2 = get_stars httpx_available o2 := by
    cases a2 <;> rfl
  refine ⟨h1, h2, ?_, ?_, ?_⟩ <;>
    simp [handleAll, h1, h2, runEvents, noticesOf, List.foldl_append,
      List.filterMap_append]

end TextualDemo

namespace KeyPanel

/-- Membership in the first-occurrence list is membership in the list. -/
theorem mem_firstOcc (a : String) (l : List String) :
    a ∈ firstOcc l ↔ a ∈ l := by
  induction l with
  | nil => simp [firstOcc]
  | cons x rest ih =>
    by_cases hax : a = x
    · subst hax
      simp [firstOcc]
    · simp [firstOcc, List.mem_filter, ih, hax]

/-- The first-occurrence list has no duplicates. -/
theorem nodup_firstOcc (l : List String) : (firstOcc l).Nodup := by
  induction l with
  | nil => simp [firstOcc]
  | cons x rest ih =>
    simp only [firstOcc, List.nodup_cons]
    constructor
    · intro hmem
      have hx := (List.mem_filter.mp hmem).2
      simp at hx
    · exact ih.filter _

/-- Appending one element extends the first-occurrence list exactly when
the element is new. -/
theorem firstOcc_append_singleton (l : List String) (a : String) :
    firstOcc (l ++ [a]) = if a ∈ l then firstOcc l else firstOcc l ++ [a] := by
  induction l with
  | nil =>
    rw [if_neg (List.not_mem_nil a)]
    rfl
  | cons x rest ih =>
    have hcons : firstOcc ((x :: rest) ++ [a])
        = x :: (firstOcc (rest ++ [a])).filter (fun y => decide (y ≠ x)) := rfl
    rw [hcons, ih]
    by_cases hx : a = x
    · subst hx
      rw [if_pos (List.mem_cons_self _ _)]
      by_cases hmem : a ∈ rest
      · rw [if_pos hmem]
        rfl
      · rw [if_neg hmem, List.filter_append]
        have hsing : [a].filter (fun y => decide (y ≠ a)) = [] := by simp
        rw [hsing, List.append_nil]
        rfl
    · by_cases hmem : a ∈ rest
      · rw [if_pos hmem, if_pos (List.mem_cons_of_mem _ hmem)]
        rfl
      · rw [if_neg hmem, if_neg (by simp [hx, hmem]), List.filter_append]
        have hsing : [a].filter (fun y => decide (y ≠ x)) = [a] := by simp [hx]
        rw [hsing]
        rfl

/-- One defaultdict insertion step preserves the specification-side view of
`action_to_bindings`. -/
theorem addBinding_groupsOf (P : List ActiveBinding) (b : ActiveBinding) :
    addBinding (groupsOf P) b = groupsOf (P ++ [b]) := by
  have hany : ((groupsOf P).any fun p => p.1 = b.binding.action) = true
      ↔ b.binding.action ∈ P.map (fun x => x.binding.action) := by
    constructor
    · intro h
      obtain ⟨p, hp, hdec⟩ := List.any_eq_true.mp h
      obtain ⟨a, ha, rfl⟩ := List.mem_map.mp hp
      simp only [decide_eq_true_eq] at hdec
      rw [← hdec]
      exact (mem_firstOcc a _).mp ha
    · intro h
      apply List.any_eq_true.mpr
      refine ⟨(b.binding.action,
        P.filter (fun x => x.binding.action = b.binding.action)), ?_, by simp⟩
      exact List.mem_map.mpr ⟨b.binding.action, (mem_firstOcc _ _).mpr h, rfl⟩
  have hacts : (P ++ [b]).map (fun x => x.binding.action)
      = P.map (fun x => x.binding.action) ++ [b.binding.action] := by simp
  by_cases hmem : b.binding.action ∈ P.map (fun x => x.binding.action)
  · rw [addBinding, if_pos (hany.mpr hmem), groupsOf, groupsOf, List.map_map,
      hacts, firstOcc_append_singleton, if_pos hmem]
    apply List.map_congr_left
    intro a _
    by_cases ha : a = b.binding.action
    · subst ha
      simp [Function.comp, List.filter_append]
    · simp [Function.comp, ha, Ne.symm ha, List.filter_append]
  · rw [addBinding, if_neg (fun hcon => hmem (hany.mp hcon)),
      groupsOf, groupsOf, hacts, firstOcc_append_singleton, if_neg hmem,
      List.map_append]
    congr 1
    · apply List.map_congr_left
      intro a ha
      have hne : ¬ b.binding.action = a := by
        intro hcon
        exact hmem (by rw [hcon]; exact (mem_firstOcc a _).mp ha)
      simp [hne, List.filter_append]
    · have hnil : P.filter (fun x => x.binding.action = b.binding.action) = [] := by
        rw [List.filter_eq_nil_iff]
        intro x hx
        simp only [decide_eq_true_eq]
        intro hcon
        exact hmem (List.mem_map.mpr ⟨x, hx, hcon⟩)
      simp [List.filter_append, hnil]

/-- Folding the defaultdict loop over any suffix extends the
specification-side view elementwise. -/
theorem foldl_addBinding (bs P : List ActiveBinding) :
    List.foldl addBinding (groupsOf P) bs = groupsOf (P ++ bs) := by
  induction bs generalizing P with
  | nil => simp
  | cons b rest ih =>
    rw [List.foldl_cons, addBinding_groupsOf, ih]
    simp

/-- The `action_to_bindings` dict over a group: one entry per distinct
action, in first-occurrence order, carrying every binding of the group
with that action in group order. -/
theorem action_to_bindings_eq (g : List ActiveBinding) :
    action_to_bindings g = groupsOf g :=
  foldl_addBinding g []

/-- A `filterMap` whose function succeeds on every member keeps the length. -/
theorem length_filterMap_of_isSome {α β : Type} (f : α → Option β) (l : List α)
    (h : ∀ a ∈ l, (f a).isSome = true) : (l.filterMap f).length = l.length := by
  induction l with
  | nil => rfl
  | cons a rest ih =>
    have hrest := ih (fun x hx => h x (List.mem_cons_of_mem _ hx))
    rcases hfa : f a with _ | b
    · exact absurd (h a (List.mem_cons_self _ _)) (by simp [hfa])
    · rw [List.filterMap_cons_some hfa, List.length_cons, List.length_cons, hrest]

/-- Claim C10: the table renders its rows group by group, and within each
namespace group there is exactly one row per distinct action — one entry
of the action dict per action, the action list being duplicate-free — and
that row is rendered from the head of the bindings carrying that action,
i.e. the first binding of the group with that action; the remaining
bindings of the action group contribute no row. -/
theorem claim_C10 (kd : Binding → String) (bs : List ActiveBinding) :
    render_bindings_table kd bs
        = (groupByNamespace bs).flatMap (fun p => rowsOfGroup kd p.2)
      ∧ ∀ p ∈ groupByNamespace bs,
          rowsOfGroup kd p.2
              = (firstOcc (p.2.map (fun b => b.binding.action))).filterMap
                  (fun a =>
                    ((p.2.filter (fun b => b.binding.action = a)).head?).map
                      (fun e => render_row kd e.binding))
            ∧ (firstOcc (p.2.map (fun b => b.binding.action))).Nodup
            ∧ (rowsOfGroup kd p.2).length
                = (firstOcc (p.2.map (fun b => b.binding.action))).length := by
  refine ⟨rfl, ?_⟩
  intro p _
  have hrows : rowsOfGroup kd p.2
      = (firstOcc (p.2.map (fun b => b.binding.action))).filterMap
          (fun a =>
            ((p.2.filter (fun b => b.binding.action = a)).head?).map
              (fun e => render_row kd e.binding)) := by
    rw [rowsOfGroup, action_to_bindings_eq, groupsOf, List.filterMap_map]
    rfl
  refine ⟨hrows, nodup_firstOcc _, ?_⟩
  rw [hrows]
  apply length_filterMap_of_isSome
  intro a ha
  have hmem : a ∈ p.2.map (fun b => b.binding.action) := (mem_firstOcc a _).mp ha
  obtain ⟨b, hb, rfl⟩ := List.mem_map.mp hmem
  have hbf : b ∈ p.2.filter (fun x => x.binding.action = b.binding.action) :=
    List.mem_filter.mpr ⟨hb, by simp⟩
  rcases hfil : p.2.filter (fun x => x.binding.action = b.binding.action)
    with _ | ⟨c, cs⟩
  · rw [hfil] at hbf
    exact absurd hbf (List.not_mem_nil _)
  · simp [hfil]

/-- Witness for claim C10 on two same-namespace bindings sharing the
action `quit`: the rows of the single group follow the first-binding
characterization and the distinct-action list has no duplicates. -/
theorem claim_C10_witness :
    rowsOfGroup witnessKd witnessBindings
        = (firstOcc (witnessBindings.map (fun b => b.binding.action))).filterMap
            (fun a =>
              ((witnessBindings.filter (fun b => b.binding.action = a)).head?).map
                (fun e => render_row witnessKd e.binding))
      ∧ (firstOcc (witnessBindings.map (fun b => b.binding.action))).Nodup :=
  ⟨(((claim_C10 witnessKd witnessBindings).2 (0, witnessBindings) (by decide))).1,
    (((claim_C10 witnessKd witnessBindings).2 (0, witnessBindings) (by decide))).2.1⟩

end KeyPanel
